import Mathlib

/-!
Verification of the die-with-zero financial planner
(src/cli/die_with_zero.py) against its specification.

The Python program is shallowly embedded: currency amounts and rates are
modelled as rationals, Python dicts keyed by year or category name as
association lists, and exceptions as Option results.  Definitions follow
the source line by line; theorems settle the frozen claims.
-/

/-- One asset category of the allocation: current amount, annual
appreciation rate, and whether the asset is liquid
(source: asset_allocation entries, die_with_zero.py lines 31-34). -/
structure AssetCategory where
  amount : ℚ
  rate : ℚ
  liquid : Bool
deriving Repr, DecidableEq

/-- The tax-rate argument: either a single constant rate applied to all
years, or a mapping from year to rate (die_with_zero.py lines 27-30). -/
inductive TaxRate where
  | const : ℚ → TaxRate
  | schedule : List (Nat × ℚ) → TaxRate
deriving Repr, DecidableEq

/-- The planner state produced by FinancialPlanner.__init__
(die_with_zero.py lines 56-66). -/
structure FinancialPlanner where
  initial_gross_income : ℚ
  initial_expenses : ℚ
  inflation_rate : ℚ
  income_growth_rate : ℚ
  tax_rate : TaxRate
  asset_allocation : List (String × AssetCategory)
  additional_expenses : List (Nat × ℚ × String)
  milestones : List ℚ
  initial_net_worth : ℚ
deriving Repr, DecidableEq

/-- FinancialPlanner.__init__ (die_with_zero.py lines 6-66): stores the
arguments, replaces an absent additional-expense mapping by the empty one,
sorts the milestones, and computes the initial net worth as the sum of
the allocation amounts.  The constructor performs no validation and has
no failure path. -/
def FinancialPlanner.init
    (annual_gross_income : ℚ) (annual_expenses : ℚ)
    (inflation_rate : ℚ) (income_growth_rate : ℚ)
    (tax_rate : TaxRate)
    (asset_allocation : List (String × AssetCategory))
    (additional_expenses : Option (List (Nat × ℚ × String)))
    (milestones : Option (List ℚ)) : FinancialPlanner :=
  { initial_gross_income := annual_gross_income
    initial_expenses := annual_expenses
    inflation_rate := inflation_rate
    income_growth_rate := income_growth_rate
    tax_rate := tax_rate
    asset_allocation := asset_allocation
    additional_expenses := additional_expenses.getD []
    milestones := List.insertionSort (fun a b => a ≤ b) (milestones.getD [])
    initial_net_worth := (asset_allocation.map (fun c => c.2.amount)).sum }

/-- FinancialPlanner._get_tax_rate_for_year (die_with_zero.py lines 68-79).
A constant rate is returned unchanged; for a mapping, the value at the
greatest key at or before the year is returned, and if the year precedes
every key, the value at the minimum key.  The none result models the
ValueError raised by min() on an empty mapping. -/
def FinancialPlanner.get_tax_rate_for_year (p : FinancialPlanner) (year : Nat) :
    Option ℚ :=
  match p.tax_rate with
  | TaxRate.const r => some r
  | TaxRate.schedule m =>
    let applicable_years :=
      (List.insertionSort (fun a b => a ≤ b) (m.map Prod.fst)).filter
        (fun y => y ≤ year)
    match applicable_years.getLast? with
    | some y => m.lookup y
    | none =>
      match (m.map Prod.fst).min? with
      | some y => m.lookup y
      | none => none

/-- FinancialPlanner._get_additional_expense_for_year
(die_with_zero.py lines 81-95).  Returns the expense amount and
description at the greatest key at or before the year; an empty mapping,
or a year preceding every key, yields amount 0 and an empty
description. -/
def FinancialPlanner.get_additional_expense_for_year (p : FinancialPlanner)
    (year : Nat) : ℚ × String :=
  if p.additional_expenses.isEmpty then (0, "")
  else
    let applicable_years :=
      (List.insertionSort (fun a b => a ≤ b)
        (p.additional_expenses.map Prod.fst)).filter (fun y => y ≤ year)
    match applicable_years.getLast? with
    | some y =>
      match p.additional_expenses.lookup y with
      | some e => (e.1, e.2)
      | none => (0, "")
    | none => (0, "")

/-- The asset-allocation entry for a category name.  In the source this is
the dict access self.asset_allocation[k]; the working asset names always
come from the allocation, so the default branch is dead. -/
def allocOf (p : FinancialPlanner) (c : String) : AssetCategory :=
  (p.asset_allocation.lookup c).getD { amount := 0, rate := 0, liquid := true }

/-- Sum of the amounts of the liquid categories of a working asset mapping
(die_with_zero.py lines 204-209 and 219-224). -/
def liquidTotal (p : FinancialPlanner) (assets : List (String × ℚ)) : ℚ :=
  ((assets.filter (fun a => (allocOf p a.1).liquid)).map Prod.snd).sum

/-- The savings allocation / liquidation step of the year transition
(die_with_zero.py lines 201-232).  Each entry carries
(name, amount, gain, loss).  Positive savings are distributed across the
liquid categories in proportion to their share of the total liquid value;
negative savings liquidate the absolute amount proportionally; a total
liquid value that is not positive makes the step a no-op for every
category (the guard at lines 211 and 226), so the division never has a
zero divisor. -/
def applySavingsStep (p : FinancialPlanner) (sav : ℚ)
    (assets : List (String × ℚ)) : List (String × ℚ × ℚ × ℚ) :=
  let totalLiquid := liquidTotal p assets
  assets.map (fun a =>
    if (allocOf p a.1).liquid = true ∧ 0 < totalLiquid then
      if 0 < sav then
        (a.1, a.2 + sav * (a.2 / totalLiquid), sav * (a.2 / totalLiquid), 0)
      else if sav < 0 then
        (a.1, a.2 - |sav| * (a.2 / totalLiquid), 0, |sav| * (a.2 / totalLiquid))
      else (a.1, a.2, 0, 0)
    else (a.1, a.2, 0, 0))

/-- The appreciation step of the year transition (die_with_zero.py lines
234-239): every category, liquid or not, grows by its own rate, and the
appreciation is added to the category's gain. -/
def applyAppreciation (p : FinancialPlanner)
    (entries : List (String × ℚ × ℚ × ℚ)) : List (String × ℚ × ℚ × ℚ) :=
  entries.map (fun e =>
    (e.1, e.2.1 * (1 + (allocOf p e.1).rate),
      e.2.2.1 + e.2.1 * (allocOf p e.1).rate, e.2.2.2))

/-- Outcome of one year transition over the assets: new amounts and the
per-category gains and losses recorded for the verbose columns. -/
structure TransitionResult where
  assets : List (String × ℚ)
  gains : List (String × ℚ)
  losses : List (String × ℚ)
deriving Repr, DecidableEq

/-- The full asset transition of one simulated year
(die_with_zero.py lines 197-239): savings flow, then appreciation. -/
def transitionAssets (p : FinancialPlanner) (sav : ℚ)
    (assets : List (String × ℚ)) : TransitionResult :=
  let stepped := applyAppreciation p (applySavingsStep p sav assets)
  { assets := stepped.map (fun e => (e.1, e.2.1))
    gains := stepped.map (fun e => (e.1, e.2.2.1))
    losses := stepped.map (fun e => (e.1, e.2.2.2)) }

/-- Per-category net change, gain minus loss
(die_with_zero.py lines 247-249). -/
def netChanges (tr : TransitionResult) : List (String × ℚ) :=
  List.zipWith (fun g l => (g.1, g.2 - l.2)) tr.gains tr.losses

/-- Total value of a working asset mapping
(sum(assets.values()), die_with_zero.py line 138). -/
def assetTotal (assets : List (String × ℚ)) : ℚ :=
  (assets.map Prod.snd).sum

/-- The milestones_reached dict (die_with_zero.py line 122): for each
milestone, the first year at which it was reached, if any. -/
def reachedLookup (reached : List (ℚ × Option Nat)) (m : ℚ) : Option Nat :=
  (reached.lookup m).join

/-- The milestone update of one year (die_with_zero.py lines 141-147):
every still-unreached milestone at or below the current net worth is
marked reached at this year. -/
def updateMilestones (nw : ℚ) (year : Nat)
    (reached : List (ℚ × Option Nat)) : List (ℚ × Option Nat) :=
  reached.map (fun e =>
    match e.2 with
    | none => (e.1, if e.1 ≤ nw then some year else none)
    | some y => (e.1, some y))

/-- The unrealized-milestones column (die_with_zero.py lines 176-184),
modelled by the list of thresholds rather than their formatted strings. -/
def unrealizedOf (milestones : List ℚ) (reached : List (ℚ × Option Nat)) :
    List ℚ :=
  milestones.filter (fun m => (reachedLookup reached m).isNone)

/-- One row of the projection DataFrame (die_with_zero.py lines 150-184).
The verbose gain/loss/net-change columns are modelled as association
lists, empty when the columns are absent. -/
structure ProjectionRow where
  year : Nat
  gross_income : ℚ
  tax_rate : ℚ
  net_income : ℚ
  base_expenses : ℚ
  additional_expense : ℚ
  total_expenses : ℚ
  annual_savings : ℚ
  assets : List (String × ℚ)
  gains : List (String × ℚ)
  losses : List (String × ℚ)
  net_changes : List (String × ℚ)
  total_net_worth : ℚ
  unrealized : List ℚ
deriving Repr, DecidableEq

/-- The mutable loop state of _project_base (die_with_zero.py lines
117-122): current gross income, current base expenses, working asset
amounts, and the milestones-reached dict. -/
structure ProjState where
  gross : ℚ
  expenses : ℚ
  assets : List (String × ℚ)
  reached : List (ℚ × Option Nat)
deriving Repr, DecidableEq

/-- The income override at loop top (die_with_zero.py lines 126-127). -/
def applyOverride (ov : Option (List (Nat × ℚ))) (year : Nat) (g : ℚ) : ℚ :=
  match ov with
  | none => g
  | some m => (m.lookup year).getD g

/-- Whether income growth applies into year+1
(die_with_zero.py line 191): it does unless year+1 is overridden. -/
def growthApplies (ov : Option (List (Nat × ℚ))) (year : Nat) : Bool :=
  match ov with
  | none => true
  | some m => (m.lookup (year + 1)).isNone

/-- The body of the year loop of FinancialPlanner._project_base
(die_with_zero.py lines 124-249), with the remaining iteration count as
explicit fuel (years + 1 - year at every call from the entry point, so
the fuel-0 branch is never taken).  A none result models the ValueError
of the tax lookup on an empty tax mapping.  The in-place back-fill of the
emitted row's gain/loss columns (lines 241-249) is modelled by building
the row with the transition's figures directly; a final row (year =
years > 0, verbose) keeps the zero-initialized columns of lines 166-171,
and a row without the columns carries empty lists. -/
def projectRowsAux (p : FinancialPlanner) (years : Nat) (verbose : Bool)
    (ov : Option (List (Nat × ℚ))) :
    Nat → Nat → ProjState → Option (List ProjectionRow)
  | 0, _, _ => some []
  | fuel + 1, year, st =>
    match p.get_tax_rate_for_year year with
    | none => none
    | some tax_rate =>
      let g := applyOverride ov year st.gross
      let net_income := g * (1 - tax_rate)
      let additional_expense := (p.get_additional_expense_for_year year).1
      let total_expenses := st.expenses + additional_expense
      let total_net_worth := assetTotal st.assets
      let annual_savings := if 0 < year then net_income - total_expenses else 0
      let reached := updateMilestones total_net_worth year st.reached
      let baseRow : ProjectionRow :=
        { year := year
          gross_income := g
          tax_rate := tax_rate
          net_income := net_income
          base_expenses := st.expenses
          additional_expense := additional_expense
          total_expenses := total_expenses
          annual_savings := annual_savings
          assets := st.assets
          gains := []
          losses := []
          net_changes := []
          total_net_worth := total_net_worth
          unrealized := unrealizedOf p.milestones reached }
      if year < years then
        let tr := transitionAssets p annual_savings st.assets
        let row := if verbose then
            { baseRow with
              gains := tr.gains
              losses := tr.losses
              net_changes := netChanges tr }
          else baseRow
        let st' : ProjState :=
          { gross := if growthApplies ov year then
                g * (1 + p.income_growth_rate) else g
            expenses := st.expenses * (1 + p.inflation_rate)
            assets := tr.assets
            reached := reached }
        match projectRowsAux p years verbose ov fuel (year + 1) st' with
        | none => none
        | some rest => some (row :: rest)
      else
        let row := if verbose ∧ 0 < year then
            { baseRow with
              gains := st.assets.map (fun a => (a.1, 0))
              losses := st.assets.map (fun a => (a.1, 0))
              net_changes := st.assets.map (fun a => (a.1, 0)) }
          else baseRow
        some [row]

/-- FinancialPlanner._project_base (die_with_zero.py lines 97-251): runs
the year loop from year 0 on a fresh copy of the initial allocation
amounts, with all milestones initially unreached. -/
def FinancialPlanner.project_base (p : FinancialPlanner) (years : Nat)
    (verbose : Bool) (ov : Option (List (Nat × ℚ))) :
    Option (List ProjectionRow) :=
  projectRowsAux p years verbose ov (years + 1) 0
    { gross := p.initial_gross_income
      expenses := p.initial_expenses
      assets := p.asset_allocation.map (fun c => (c.1, c.2.amount))
      reached := p.milestones.map (fun m => (m, none)) }

/-- FinancialPlanner.project (die_with_zero.py lines 253-264). -/
def FinancialPlanner.project (p : FinancialPlanner) (years : Nat)
    (verbose : Bool) : Option (List ProjectionRow) :=
  p.project_base years verbose none

/-- A call of project as seen from the caller: the result together with
the receiver after the call.  The method body reads self and writes only
method-local state (die_with_zero.py lines 114-122 copy the allocation
amounts into a local dict), so the receiver is returned unchanged. -/
def projectCall (p : FinancialPlanner) (years : Nat) (verbose : Bool) :
    Option (List ProjectionRow) × FinancialPlanner :=
  (p.project years verbose, p)

/-- The income-override mapping built by
FinancialPlanner._project_with_zero_income (die_with_zero.py lines
279-289): organic income before start_year, zero from start_year on. -/
def buildOverride (p : FinancialPlanner) (years start_year : Nat) :
    List (Nat × ℚ) :=
  ((List.range (years + 1)).foldl
    (fun (acc : List (Nat × ℚ) × ℚ) year =>
      if year < start_year then
        let cur := if 0 < year then acc.2 * (1 + p.income_growth_rate)
          else acc.2
        (acc.1 ++ [(year, cur)], cur)
      else (acc.1 ++ [(year, 0)], acc.2))
    ([], p.initial_gross_income)).1

/-- FinancialPlanner._project_with_zero_income
(die_with_zero.py lines 266-291). -/
def FinancialPlanner.project_with_zero_income (p : FinancialPlanner)
    (years start_year : Nat) : Option (List ProjectionRow) :=
  p.project_base years false (some (buildOverride p years start_year))

/-- Final-year total net worth of a zero-income-from-start_year run
(df.iloc[-1]["Total Net Worth"], die_with_zero.py lines 374 and 387). -/
def finalNetWorth (p : FinancialPlanner) (years start_year : Nat) :
    Option ℚ :=
  (p.project_with_zero_income years start_year).bind
    (fun rows => rows.getLast?.map (fun r => r.total_net_worth))

/-- The retirement-year scan of FinancialPlanner.summary
(die_with_zero.py lines 385-396), instrumented with the list of
candidate years actually evaluated.  The best candidate is updated only
on strict improvement of the absolute final net worth, and the scan
breaks after the first candidate whose final net worth is negative. -/
def searchLoop (p : FinancialPlanner) (years : Nat) :
    List Nat → Nat → ℚ → Option (Nat × ℚ × List Nat)
  | [], best_year, best_diff => some (best_year, best_diff, [])
  | r :: rest, best_year, best_diff =>
    match finalNetWorth p years r with
    | none => none
    | some final_worth =>
      let best_year2 := if |final_worth| < best_diff then r else best_year
      let best_diff2 := if |final_worth| < best_diff then |final_worth|
        else best_diff
      if final_worth < 0 then some (best_year2, best_diff2, [r])
      else
        match searchLoop p years rest best_year2 best_diff2 with
        | none => none
        | some (b, d, ev) => some (b, d, r :: ev)

/-- The die-with-zero retirement search of FinancialPlanner.summary
(die_with_zero.py lines 372-396): the baseline is the stop-now run
(start_year 0), candidate years 1..years are scanned in order.  Returns
the best year, its absolute final net worth, and the evaluated
candidates. -/
def dieWithZeroSearch (p : FinancialPlanner) (years : Nat) :
    Option (Nat × ℚ × List Nat) :=
  match finalNetWorth p years 0 with
  | none => none
  | some final_worth_no_income =>
    searchLoop p years (List.range' 1 years) 0 |final_worth_no_income|

/-! ## Concrete configurations used as inputs of counterexamples and
witnesses -/

/-- The end-to-end configuration of the spec: gross income 80000,
expenses 40000, no inflation, no income growth, constant tax rate 0 and
a single liquid asset A of amount 100000 at rate 0. -/
def c1Planner : FinancialPlanner :=
  FinancialPlanner.init 80000 40000 0 0 (TaxRate.const 0)
    [("A", { amount := 100000, rate := 0, liquid := true })] none none

/-- A planner whose additional-expense schedule has its earliest key at
year 5. -/
def c2Planner : FinancialPlanner :=
  FinancialPlanner.init 0 0 0 0 (TaxRate.const 0)
    [("A", { amount := 1, rate := 0, liquid := true })]
    (some [(5, (20000, "kid"))]) none

/-- A planner constructed with an empty mapping as the tax schedule. -/
def c8Planner : FinancialPlanner :=
  FinancialPlanner.init 1 1 0 0 (TaxRate.schedule [])
    [("A", { amount := 1, rate := 0, liquid := true })] none none

/-! ## Helper lemmas -/

/-- Lookup in an association list with pairwise distinct keys finds the
value of a member pair. -/
theorem lookup_of_mem_nodup {α β : Type} [BEq α] [LawfulBEq α] :
    ∀ {m : List (α × β)} {k : α} {v : β},
      (m.map Prod.fst).Nodup → (k, v) ∈ m → m.lookup k = some v := by
  intro m
  induction m with
  | nil => intro k v _ hm; cases hm
  | cons a t ih =>
    intro k v hnd hm
    have hnd' : a.1 ∉ t.map Prod.fst ∧ (t.map Prod.fst).Nodup := by
      rw [List.map_cons] at hnd
      exact List.nodup_cons.mp hnd
    rcases List.mem_cons.mp hm with heq | hmt
    · cases heq
      simp [List.lookup]
    · have hk : k ≠ a.1 := by
        intro hk
        exact hnd'.1 (List.mem_map.mpr ⟨(k, v), hmt, hk⟩)
      have hbeq : (k == a.1) = false := beq_eq_false_iff_ne.mpr hk
      simp [List.lookup, hbeq]
      exact ih hnd'.2 hmt

/-- In a list sorted by the weak order, every element is at most the last
one. -/
theorem sorted_le_getLast :
    ∀ (l : List Nat) (hne : l ≠ []),
      List.Sorted (fun a b => a ≤ b) l → ∀ x ∈ l, x ≤ l.getLast hne := by
  intro l
  induction l with
  | nil => intro hne; cases hne rfl
  | cons a t ih =>
    intro hne hs x hx
    rcases List.sorted_cons.mp hs with ⟨ha, hst⟩
    cases t with
    | nil =>
      simp at hx
      simp [hx, List.getLast]
    | cons b u =>
      rw [List.getLast_cons (by simp)]
      rcases List.mem_cons.mp hx with rfl | hxt
      · exact ha _ (List.getLast_mem (by simp))
      · exact ih (by simp) hst x hxt

/-! ## C1: end-to-end single-year projection -/

/-- C1, counterexample.  At the spec's end-to-end configuration
(income 80000, expenses 40000, no inflation or growth, tax 0, one liquid
asset A of 100000 at rate 0), the year-1 row of a 1-year projection has
asset A at 100000 and total net worth 100000, not the 140000 the claim
states: the row for a year shows the amounts before that year's
transition, and year-0 savings are fixed at zero, so year-1 savings only
reach the assets in a transition to a year 2 that a 1-year horizon does
not simulate. -/
theorem c1_end_to_end_counterexample :
    ((c1Planner.project_base 1 true none).bind (fun rows => rows[1]?)).map
        (fun r => (r.net_income, r.total_expenses, r.annual_savings,
          r.assets.lookup "A", r.total_net_worth))
      = some (80000, 40000, 40000, some 100000, 100000)
    ∧ ((c1Planner.project_base 1 true none).bind (fun rows => rows[1]?)).map
        (fun r => (r.net_income, r.total_expenses, r.annual_savings,
          r.assets.lookup "A", r.total_net_worth))
      ≠ some (80000, 40000, 40000, some 140000, 140000) := by
  constructor <;>
  norm_num [FinancialPlanner.project_base, projectRowsAux,
    FinancialPlanner.get_tax_rate_for_year,
    FinancialPlanner.get_additional_expense_for_year, transitionAssets,
    applySavingsStep, applyAppreciation, liquidTotal, allocOf, assetTotal,
    updateMilestones, unrealizedOf, reachedLookup, applyOverride,
    growthApplies, netChanges, c1Planner, FinancialPlanner.init,
    List.insertionSort, List.orderedInsert, List.lookup]

/-- C1, amended: at the same configuration the year-1 row has net income
80000, total expenses 40000, annual savings 40000, asset A amount 100000
and total net worth 100000 (the savings of year 1 would be applied only
in the transition to year 2). -/
theorem c1_end_to_end_amended :
    ((c1Planner.project_base 1 true none).bind (fun rows => rows[1]?)).map
        (fun r => (r.net_income, r.total_expenses, r.annual_savings,
          r.assets.lookup "A", r.total_net_worth))
      = some (80000, 40000, 40000, some 100000, 100000) := by
  norm_num [FinancialPlanner.project_base, projectRowsAux,
    FinancialPlanner.get_tax_rate_for_year,
    FinancialPlanner.get_additional_expense_for_year, transitionAssets,
    applySavingsStep, applyAppreciation, liquidTotal, allocOf, assetTotal,
    updateMilestones, unrealizedOf, reachedLookup, applyOverride,
    growthApplies, netChanges, c1Planner, FinancialPlanner.init,
    List.insertionSort, List.orderedInsert, List.lookup]

/-! ## C2: additional-expense resolution before the earliest key -/

/-- C2, counterexample.  For the schedule with single key 5 and amount
20000, the additional expense resolved for year 0 is 0 with an empty
description, not the value stored at the minimum key: unlike the tax
resolver, the expense resolver returns 0 when the year precedes every
key. -/
theorem c2_early_year_counterexample :
    c2Planner.get_additional_expense_for_year 0 = (0, "")
    ∧ c2Planner.get_additional_expense_for_year 0 ≠ (20000, "kid") := by
  constructor
  · rfl
  · decide

/-- C2, amended: for every additional-expense schedule and every year
that precedes every key of the schedule, the resolver returns amount 0
and an empty description, not the value at the minimum key. -/
theorem c2_early_year_amended (p : FinancialPlanner) (year : Nat)
    (hne : p.additional_expenses ≠ [])
    (h : ∀ k ∈ p.additional_expenses.map Prod.fst, year < k) :
    p.get_additional_expense_for_year year = (0, "") := by
  unfold FinancialPlanner.get_additional_expense_for_year
  have hemp : p.additional_expenses.isEmpty = false := by
    simpa [List.isEmpty_iff] using hne
  rw [hemp]
  simp only [Bool.false_eq_true, if_false]
  have hfil :
      (List.insertionSort (fun a b => a ≤ b)
          (p.additional_expenses.map Prod.fst)).filter (fun y => y ≤ year)
        = [] := by
    rw [List.filter_eq_nil_iff]
    intro k hk
    have hk' : k ∈ p.additional_expenses.map Prod.fst :=
      (List.Perm.mem_iff (List.perm_insertionSort _ _)).mp hk
    simpa using Nat.not_le.mpr (h k hk')
  rw [hfil]
  rfl

/-- C2 amended, witness at the concrete schedule with earliest key 5 and
year 0. -/
theorem c2_early_year_amended_witness :
    c2Planner.get_additional_expense_for_year 0 = (0, "") :=
  c2_early_year_amended c2Planner 0 (by decide) (by decide)

/-! ## C8: behaviour of construction on a malformed schedule -/

/-- C8, counterexample.  Constructing a planner with an empty mapping as
the tax schedule succeeds: the constructor performs no validation and
stores the empty mapping unchanged, and the failure only surfaces as an
error (the none result, modelling the ValueError of min() on an empty
dict) at the first tax-rate lookup. -/
theorem c8_no_construction_failure :
    c8Planner.tax_rate = TaxRate.schedule []
    ∧ c8Planner.get_tax_rate_for_year 0 = none := ⟨rfl, rfl⟩

/-- C8, amended: construction with an empty tax mapping succeeds for
every argument list (the malformed schedule is stored unvalidated), and
every subsequent tax-rate lookup fails with an error rather than
silently defaulting. -/
theorem c8_empty_schedule_fails_at_lookup
    (a b c d : ℚ) (aa : List (String × AssetCategory))
    (ae : Option (List (Nat × ℚ × String))) (ms : Option (List ℚ))
    (year : Nat) :
    (FinancialPlanner.init a b c d (TaxRate.schedule []) aa ae ms).tax_rate
        = TaxRate.schedule []
    ∧ (FinancialPlanner.init a b c d (TaxRate.schedule []) aa ae
        ms).get_tax_rate_for_year year = none :=
  ⟨rfl, rfl⟩

/-! ## C9: no shared mutable state between projection runs -/

/-- C9: two successive calls of project with identical arguments return
identical row sequences, and a call leaves the planner unchanged.  In
the source the method reads self but assigns only to locals, starting
from a fresh copy of the allocation amounts (die_with_zero.py line 119),
which the embedding renders by projectCall returning the receiver it
read; the theorem states run-to-run equality through the post-call
state. -/
theorem project_idempotent (p : FinancialPlanner) (years : Nat)
    (verbose : Bool) :
    (projectCall ((projectCall p years verbose).2) years verbose).1
      = (projectCall p years verbose).1
    ∧ (projectCall p years verbose).2 = p :=
  ⟨rfl, rfl⟩

/-! ## C4: transitions with zero total liquid value -/

/-- C4: when the total liquid value is zero the savings
allocation/liquidation step of a year transition is a no-op for every
savings amount (the guards at die_with_zero.py lines 211 and 226 skip
the proportional division, so no division by zero is attempted): every
category's amount changes only by its appreciation, all recorded losses
are zero, and the new amounts do not depend on the savings, so negative
savings do not reduce net worth.  The projection applies transitionAssets
at every transition year, so this covers every projection year whose
total liquid value is zero. -/
theorem zero_liquid_savings_noop (p : FinancialPlanner) (sav : ℚ)
    (assets : List (String × ℚ)) (h : liquidTotal p assets = 0) :
    (transitionAssets p sav assets).assets
      = assets.map (fun a => (a.1, a.2 * (1 + (allocOf p a.1).rate)))
    ∧ (transitionAssets p sav assets).gains
      = assets.map (fun a => (a.1, a.2 * (allocOf p a.1).rate))
    ∧ (transitionAssets p sav assets).losses
      = assets.map (fun a => (a.1, 0)) := by
  have hstep : applySavingsStep p sav assets
      = assets.map (fun a => (a.1, a.2, (0 : ℚ), (0 : ℚ))) := by
    unfold applySavingsStep
    rw [h]
    simp
  refine ⟨?_, ?_, ?_⟩ <;>
  simp [transitionAssets, hstep, applyAppreciation, List.map_map,
    Function.comp]

/-- C4, witness: a single non-liquid category of amount 7 at rate 1, with
negative savings -3, keeps its amount changed only by appreciation. -/
theorem zero_liquid_savings_noop_witness :
    (transitionAssets
        (FinancialPlanner.init 0 0 0 0 (TaxRate.const 0)
          [("R", { amount := 7, rate := 1, liquid := false })] none none)
        (-3) [("R", 7)]).assets = [("R", 7 * (1 + 1))]
    ∧ (transitionAssets
        (FinancialPlanner.init 0 0 0 0 (TaxRate.const 0)
          [("R", { amount := 7, rate := 1, liquid := false })] none none)
        (-3) [("R", 7)]).losses = [("R", 0)] := by
  have h := zero_liquid_savings_noop
    (FinancialPlanner.init 0 0 0 0 (TaxRate.const 0)
      [("R", { amount := 7, rate := 1, liquid := false })] none none)
    (-3) [("R", 7)]
    (by norm_num [liquidTotal, allocOf, FinancialPlanner.init, List.lookup])
  refine ⟨?_, ?_⟩
  · rw [h.1]
    norm_num [allocOf, FinancialPlanner.init, List.lookup]
  · rw [h.2.2]
    rfl

/-! ## C10: negative savings with positive liquid value -/

/-- Sum, over the liquid categories, of the amounts of a savings-step
result list. -/
def steppedLiquidTotal (p : FinancialPlanner)
    (entries : List (String × ℚ × ℚ × ℚ)) : ℚ :=
  ((entries.filter (fun e => (allocOf p e.1).liquid)).map
    (fun e => e.2.1)).sum

/-- Unfolding of steppedLiquidTotal over a cons. -/
theorem steppedLiquidTotal_cons (p : FinancialPlanner)
    (e : String × ℚ × ℚ × ℚ) (es : List (String × ℚ × ℚ × ℚ)) :
    steppedLiquidTotal p (e :: es)
      = (if (allocOf p e.1).liquid = true then e.2.1 else 0)
        + steppedLiquidTotal p es := by
  by_cases h : (allocOf p e.1).liquid = true
  · simp [steppedLiquidTotal, List.filter_cons, h]
  · simp [steppedLiquidTotal, List.filter_cons, h]

/-- Unfolding of liquidTotal over a cons. -/
theorem liquidTotal_cons (p : FinancialPlanner) (a : String × ℚ)
    (t : List (String × ℚ)) :
    liquidTotal p (a :: t)
      = (if (allocOf p a.1).liquid = true then a.2 else 0)
        + liquidTotal p t := by
  by_cases h : (allocOf p a.1).liquid = true
  · simp [liquidTotal, List.filter_cons, h]
  · simp [liquidTotal, List.filter_cons, h]

/-- Sum of the proportional liquidation over any asset list, for a fixed
nonzero divisor. -/
theorem liquidation_sum (p : FinancialPlanner) (c L : ℚ) (hL : L ≠ 0) :
    ∀ l : List (String × ℚ),
      steppedLiquidTotal p (l.map (fun a =>
          if (allocOf p a.1).liquid = true then
            (a.1, a.2 - c * (a.2 / L), (0 : ℚ), c * (a.2 / L))
          else (a.1, a.2, (0 : ℚ), (0 : ℚ))))
        = liquidTotal p l - c * (liquidTotal p l / L) := by
  intro l
  induction l with
  | nil => simp [steppedLiquidTotal, liquidTotal]
  | cons a t ih =>
    rw [List.map_cons, steppedLiquidTotal_cons, liquidTotal_cons]
    by_cases hliq : (allocOf p a.1).liquid = true
    · rw [if_pos hliq]
      simp only [if_pos hliq]
      rw [ih]
      field_simp
      ring
    · rw [if_neg hliq]
      simp only [if_neg hliq]
      rw [ih]
      ring

/-- C10: in a transition year with negative annual savings and strictly
positive total liquid value, the liquidation step removes from each
liquid category its proportional share of the absolute savings, leaving
non-liquid categories untouched, and removes exactly the absolute
savings in total: the liquid total after the step is the old total plus
the (negative) savings, with no lower bound at zero, so a shortfall
larger than the liquid total drives the liquid amounts negative. -/
theorem negative_savings_liquidation (p : FinancialPlanner) (sav : ℚ)
    (assets : List (String × ℚ)) (hs : sav < 0)
    (hL : 0 < liquidTotal p assets) :
    applySavingsStep p sav assets = assets.map (fun a =>
        if (allocOf p a.1).liquid = true then
          (a.1, a.2 - |sav| * (a.2 / liquidTotal p assets), (0 : ℚ),
            |sav| * (a.2 / liquidTotal p assets))
        else (a.1, a.2, (0 : ℚ), (0 : ℚ)))
    ∧ steppedLiquidTotal p (applySavingsStep p sav assets)
        = liquidTotal p assets + sav
    ∧ (liquidTotal p assets < -sav →
        steppedLiquidTotal p (applySavingsStep p sav assets) < 0) := by
  have hstep : applySavingsStep p sav assets = assets.map (fun a =>
      if (allocOf p a.1).liquid = true then
        (a.1, a.2 - |sav| * (a.2 / liquidTotal p assets), (0 : ℚ),
          |sav| * (a.2 / liquidTotal p assets))
      else (a.1, a.2, (0 : ℚ), (0 : ℚ))) := by
    unfold applySavingsStep
    refine List.map_congr_left ?_
    intro a _
    by_cases hliq : (allocOf p a.1).liquid = true
    · rw [if_pos ⟨hliq, hL⟩, if_neg (asymm hs), if_pos hs, if_pos hliq]
    · rw [if_neg (fun hc => hliq hc.1), if_neg hliq]
  have hsum : steppedLiquidTotal p (applySavingsStep p sav assets)
      = liquidTotal p assets + sav := by
    rw [hstep, liquidation_sum p |sav| (liquidTotal p assets) (ne_of_gt hL)]
    rw [div_self (ne_of_gt hL)]
    rw [abs_of_neg hs]
    ring
  refine ⟨hstep, hsum, ?_⟩
  intro hbig
  rw [hsum]
  linarith

/-- C10, witness: a single liquid category of amount 1 at rate 0 with
savings -3 is liquidated proportionally past zero, ending at -2. -/
theorem negative_savings_liquidation_witness :
    applySavingsStep
        (FinancialPlanner.init 0 0 0 0 (TaxRate.const 0)
          [("A", { amount := 1, rate := 0, liquid := true })] none none)
        (-3) [("A", 1)]
      = [("A", 1 - |(-3 : ℚ)| * (1 / 1), 0, |(-3 : ℚ)| * (1 / 1))]
    ∧ steppedLiquidTotal
        (FinancialPlanner.init 0 0 0 0 (TaxRate.const 0)
          [("A", { amount := 1, rate := 0, liquid := true })] none none)
        (applySavingsStep
          (FinancialPlanner.init 0 0 0 0 (TaxRate.const 0)
            [("A", { amount := 1, rate := 0, liquid := true })] none none)
          (-3) [("A", 1)]) < 0 := by
  have h := negative_savings_liquidation
    (FinancialPlanner.init 0 0 0 0 (TaxRate.const 0)
      [("A", { amount := 1, rate := 0, liquid := true })] none none)
    (-3) [("A", 1)] (by norm_num)
    (by norm_num [liquidTotal, allocOf, FinancialPlanner.init, List.lookup])
  refine ⟨?_, ?_⟩
  · rw [h.1]
    norm_num [allocOf, FinancialPlanner.init, List.lookup, liquidTotal]
  · exact h.2.2 (by
      norm_num [liquidTotal, allocOf, FinancialPlanner.init, List.lookup])

/-! ## C3: tax-schedule resolution -/

/-- C3: for a mapping-valued tax schedule with pairwise distinct keys,
the resolver returns the value at the greatest key at or before the
queried year, and if the year precedes every key, the value at the
minimum key. -/
theorem tax_rate_resolution (p : FinancialPlanner) (m : List (Nat × ℚ))
    (hm : p.tax_rate = TaxRate.schedule m)
    (hnd : (m.map Prod.fst).Nodup) (year : Nat) :
    (∀ k v, (k, v) ∈ m → k ≤ year →
      (∀ k' ∈ m.map Prod.fst, k' ≤ year → k' ≤ k) →
      p.get_tax_rate_for_year year = some v)
    ∧ (∀ k v, (k, v) ∈ m → (∀ k' ∈ m.map Prod.fst, year < k') →
      (∀ k' ∈ m.map Prod.fst, k ≤ k') →
      p.get_tax_rate_for_year year = some v) := by
  constructor
  · intro k v hkv hky hmax
    unfold FinancialPlanner.get_tax_rate_for_year
    rw [hm]
    dsimp only
    have hsorted : List.Sorted (fun a b => a ≤ b)
        ((List.insertionSort (fun a b => a ≤ b) (m.map Prod.fst)).filter
          (fun y => y ≤ year)) :=
      (List.sorted_insertionSort _ _).filter _
    have hkmem : k ∈ (List.insertionSort (fun a b => a ≤ b)
        (m.map Prod.fst)).filter (fun y => y ≤ year) := by
      refine List.mem_filter.mpr ⟨?_, by simpa using hky⟩
      exact (List.Perm.mem_iff (List.perm_insertionSort _ _)).mpr
        (List.mem_map.mpr ⟨(k, v), hkv, rfl⟩)
    have hne : (List.insertionSort (fun a b => a ≤ b)
        (m.map Prod.fst)).filter (fun y => y ≤ year) ≠ [] :=
      List.ne_nil_of_mem hkmem
    have hlast := List.getLast?_eq_getLast _ hne
    have hlast_mem := List.getLast_mem hne
    have hlast_le : ((List.insertionSort (fun a b => a ≤ b)
        (m.map Prod.fst)).filter (fun y => y ≤ year)).getLast hne ≤ k := by
      rcases List.mem_filter.mp hlast_mem with ⟨hm1, hm2⟩
      exact hmax _ ((List.Perm.mem_iff
        (List.perm_insertionSort _ _)).mp hm1) (by simpa using hm2)
    have hk_le : k ≤ ((List.insertionSort (fun a b => a ≤ b)
        (m.map Prod.fst)).filter (fun y => y ≤ year)).getLast hne :=
      sorted_le_getLast _ hne hsorted k hkmem
    have hkeq := Nat.le_antisymm hlast_le hk_le
    rw [hlast, hkeq]
    exact lookup_of_mem_nodup hnd hkv
  · intro k v hkv hall hmin
    unfold FinancialPlanner.get_tax_rate_for_year
    rw [hm]
    dsimp only
    have hfil : (List.insertionSort (fun a b => a ≤ b)
        (m.map Prod.fst)).filter (fun y => y ≤ year) = [] := by
      rw [List.filter_eq_nil_iff]
      intro x hx
      have hx' : x ∈ m.map Prod.fst :=
        (List.Perm.mem_iff (List.perm_insertionSort _ _)).mp hx
      simpa using Nat.not_le.mpr (hall x hx')
    rw [hfil]
    have hminq : (m.map Prod.fst).min? = some k :=
      List.min?_eq_some_iff'.mpr
        ⟨List.mem_map.mpr ⟨(k, v), hkv, rfl⟩, hmin⟩
    simp only [List.getLast?_nil, hminq]
    exact lookup_of_mem_nodup hnd hkv

/-- C3, witness at the spec's examples: for the schedule with rate 3/10
from year 0 and 2/5 from year 20, the resolved rates at years 5, 20 and
100 are 3/10, 2/5 and 2/5; for the schedule with single key 5 and rate
1/5, year 0 falls back to the earliest key. -/
theorem tax_rate_resolution_witness :
    (FinancialPlanner.init 0 0 0 0
        (TaxRate.schedule [(0, 3/10), (20, 2/5)]) [] none
        none).get_tax_rate_for_year 5 = some (3/10)
    ∧ (FinancialPlanner.init 0 0 0 0
        (TaxRate.schedule [(0, 3/10), (20, 2/5)]) [] none
        none).get_tax_rate_for_year 20 = some (2/5)
    ∧ (FinancialPlanner.init 0 0 0 0
        (TaxRate.schedule [(0, 3/10), (20, 2/5)]) [] none
        none).get_tax_rate_for_year 100 = some (2/5)
    ∧ (FinancialPlanner.init 0 0 0 0 (TaxRate.schedule [(5, 1/5)]) [] none
        none).get_tax_rate_for_year 0 = some (1/5) := by
  refine ⟨?_, ?_, ?_, ?_⟩
  · exact (tax_rate_resolution _ [(0, 3/10), (20, 2/5)] rfl (by decide)
      5).1 0 (3/10) (by norm_num) (by decide) (by decide)
  · exact (tax_rate_resolution _ [(0, 3/10), (20, 2/5)] rfl (by decide)
      20).1 20 (2/5) (by norm_num) (by decide) (by decide)
  · exact (tax_rate_resolution _ [(0, 3/10), (20, 2/5)] rfl (by decide)
      100).1 20 (2/5) (by norm_num) (by decide) (by decide)
  · exact (tax_rate_resolution _ [(5, 1/5)] rfl (by decide)
      0).2 5 (1/5) (by norm_num) (by decide) (by decide)

/-! ## C7: milestone monotonicity -/

/-- Lookup through a milestone update: the update rewrites the value at
every key in place and preserves the key set. -/
theorem lookup_updateMilestones (nw : ℚ) (year : Nat)
    (r : List (ℚ × Option Nat)) (m : ℚ) :
    (updateMilestones nw year r).lookup m
      = (r.lookup m).map (fun o =>
          match o with
          | none => if m ≤ nw then some year else none
          | some j => some j) := by
  induction r with
  | nil => rfl
  | cons e t ih =>
    by_cases hbeq : (m == e.1) = true
    · have hme : m = e.1 := eq_of_beq hbeq
      cases he : e.2 with
      | none =>
        simp [updateMilestones, List.lookup, hbeq, he, hme]
      | some j =>
        simp [updateMilestones, List.lookup, hbeq, he]
    · have hbeq' : (m == e.1) = false := by
        simpa using hbeq
      cases he : e.2 with
      | none =>
        simpa [updateMilestones, List.lookup, hbeq', he]
          using ih
      | some j =>
        simpa [updateMilestones, List.lookup, hbeq', he]
          using ih

/-- A marked milestone is excluded from the unrealized list. -/
theorem marked_not_unrealized (milestones : List ℚ)
    (reached : List (ℚ × Option Nat)) (m : ℚ) (j : Nat)
    (h : reached.lookup m = some (some j)) :
    m ∉ unrealizedOf milestones reached := by
  intro hmem
  rcases List.mem_filter.mp hmem with ⟨-, hpred⟩
  rw [reachedLookup, h] at hpred
  simp [Option.join] at hpred

/-- Once a milestone is marked in the loop state, no row emitted by the
rest of the projection loop lists it as unrealized, and the mark is
never cleared. -/
theorem marked_stays_unlisted (p : FinancialPlanner) (years : Nat)
    (verbose : Bool) (ov : Option (List (Nat × ℚ))) (m : ℚ) (j : Nat) :
    ∀ (fuel year : Nat) (st : ProjState) (rows : List ProjectionRow),
      st.reached.lookup m = some (some j) →
      projectRowsAux p years verbose ov fuel year st = some rows →
      ∀ r ∈ rows, m ∉ r.unrealized := by
  intro fuel
  induction fuel with
  | zero =>
    intro year st rows hmark hproj r hr
    rw [projectRowsAux] at hproj
    cases hproj
    cases hr
  | succ fuel ih =>
    intro year st rows hmark hproj r hr
    rw [projectRowsAux] at hproj
    cases htax : p.get_tax_rate_for_year year with
    | none =>
      rw [htax] at hproj
      cases hproj
    | some tax_rate =>
      rw [htax] at hproj
      dsimp only at hproj
      have hmark' : (updateMilestones (assetTotal st.assets) year
          st.reached).lookup m = some (some j) := by
        rw [lookup_updateMilestones, hmark]
        rfl
      by_cases hyr : year < years
      · rw [if_pos hyr] at hproj
        cases hrec : projectRowsAux p years verbose ov fuel (year + 1)
            { gross := if growthApplies ov year = true then
                  applyOverride ov year st.gross * (1 + p.income_growth_rate)
                else applyOverride ov year st.gross
              expenses := st.expenses * (1 + p.inflation_rate)
              assets := (transitionAssets p
                (if 0 < year then
                  applyOverride ov year st.gross * (1 - tax_rate)
                    - (st.expenses
                      + (p.get_additional_expense_for_year year).1)
                 else 0) st.assets).assets
              reached := updateMilestones (assetTotal st.assets) year
                st.reached } with
        | none =>
          rw [hrec] at hproj
          cases hproj
        | some rest =>
          rw [hrec] at hproj
          cases hproj
          rcases List.mem_cons.mp hr with rfl | hrt
          · cases verbose with
            | false => exact marked_not_unrealized _ _ m j hmark'
            | true => exact marked_not_unrealized _ _ m j hmark'
          · exact ih (year + 1) _ rest hmark' hrec r hrt
      · rw [if_neg hyr] at hproj
        cases hproj
        rcases List.mem_cons.mp hr with rfl | hrt
        · by_cases hv : verbose = true ∧ 0 < year
          · rw [if_pos hv]
            exact marked_not_unrealized _ _ m j hmark'
          · rw [if_neg hv]
            exact marked_not_unrealized _ _ m j hmark'
        · cases hrt

/-- A milestone whose key is present in the state and whose threshold is
at or below the current net worth is marked after the update. -/
theorem update_marks (nw : ℚ) (year : Nat) (r : List (ℚ × Option Nat))
    (m : ℚ) (hkey : (r.lookup m).isSome) (hle : m ≤ nw) :
    ∃ j, (updateMilestones nw year r).lookup m = some (some j) := by
  rcases Option.isSome_iff_exists.mp hkey with ⟨o, ho⟩
  rw [lookup_updateMilestones, ho]
  cases o with
  | none => exact ⟨year, by simp [hle]⟩
  | some j => exact ⟨j, rfl⟩

/-- The milestone update preserves presence of a key. -/
theorem update_keeps_key (nw : ℚ) (year : Nat)
    (r : List (ℚ × Option Nat)) (m : ℚ)
    (hkey : (r.lookup m).isSome) :
    ((updateMilestones nw year r).lookup m).isSome := by
  rw [lookup_updateMilestones]
  rcases Option.isSome_iff_exists.mp hkey with ⟨o, ho⟩
  rw [ho]
  rfl

/-- Along the projection loop, a milestone at or below the net worth of
an earlier emitted row is never listed as unrealized by a later row. -/
theorem rows_milestone_monotone (p : FinancialPlanner) (years : Nat)
    (verbose : Bool) (ov : Option (List (Nat × ℚ))) (m : ℚ) :
    ∀ (fuel year : Nat) (st : ProjState) (rows : List ProjectionRow),
      (st.reached.lookup m).isSome →
      projectRowsAux p years verbose ov fuel year st = some rows →
      ∀ (i j : Nat) (ri rj : ProjectionRow), i < j →
        rows[i]? = some ri → rows[j]? = some rj →
        m ≤ ri.total_net_worth → m ∉ rj.unrealized := by
  intro fuel
  induction fuel with
  | zero =>
    intro year st rows hkey hproj i j ri rj hij hi hj hle
    rw [projectRowsAux] at hproj
    cases hproj
    cases hi
  | succ fuel ih =>
    intro year st rows hkey hproj i j ri rj hij hi hj hle
    rw [projectRowsAux] at hproj
    cases htax : p.get_tax_rate_for_year year with
    | none =>
      rw [htax] at hproj
      cases hproj
    | some tax_rate =>
      rw [htax] at hproj
      dsimp only at hproj
      by_cases hyr : year < years
      · rw [if_pos hyr] at hproj
        cases hrec : projectRowsAux p years verbose ov fuel (year + 1)
            { gross := if growthApplies ov year = true then
                  applyOverride ov year st.gross * (1 + p.income_growth_rate)
                else applyOverride ov year st.gross
              expenses := st.expenses * (1 + p.inflation_rate)
              assets := (transitionAssets p
                (if 0 < year then
                  applyOverride ov year st.gross * (1 - tax_rate)
                    - (st.expenses
                      + (p.get_additional_expense_for_year year).1)
                 else 0) st.assets).assets
              reached := updateMilestones (assetTotal st.assets) year
                st.reached } with
        | none =>
          rw [hrec] at hproj
          cases hproj
        | some rest =>
          rw [hrec] at hproj
          cases hproj
          cases i with
          | zero =>
            rw [List.getElem?_cons_zero] at hi
            cases hi
            cases j with
            | zero => cases hij
            | succ j' =>
              rw [List.getElem?_cons_succ] at hj
              have hle' : m ≤ assetTotal st.assets := by
                cases verbose with
                | false => exact hle
                | true => exact hle
              rcases update_marks (assetTotal st.assets) year st.reached m
                hkey hle' with ⟨j0, hj0⟩
              exact marked_stays_unlisted p years verbose ov m j0 fuel
                (year + 1) _ rest hj0 hrec rj (List.getElem?_mem hj)
          | succ i' =>
            cases j with
            | zero => cases hij
            | succ j' =>
              rw [List.getElem?_cons_succ] at hi hj
              exact ih (year + 1) _ rest
                (update_keeps_key (assetTotal st.assets) year st.reached m
                  hkey)
                hrec i' j' ri rj (Nat.lt_of_succ_lt_succ hij) hi hj hle
      · rw [if_neg hyr] at hproj
        cases hproj
        cases i with
        | zero =>
          cases j with
          | zero => cases hij
          | succ j' =>
            rw [List.getElem?_cons_succ] at hj
            rw [List.getElem?_nil] at hj
            cases hj
        | succ i' =>
          rw [List.getElem?_cons_succ] at hi
          rw [List.getElem?_nil] at hi
          cases hi

/-- Presence of a key in the initial milestones-reached mapping. -/
theorem lookup_init_milestones (l : List ℚ) (m : ℚ) (hm : m ∈ l) :
    ((l.map (fun x => (x, (none : Option Nat)))).lookup m).isSome := by
  induction l with
  | nil => cases hm
  | cons a t ih =>
    by_cases hbeq : (m == a) = true
    · simp [List.lookup, hbeq]
    · have hbeq' : (m == a) = false := by simpa using hbeq
      rcases List.mem_cons.mp hm with rfl | hmt
      · simp at hbeq'
      · simpa [List.lookup, hbeq'] using ih hmt

/-- C7: within one projection run, if a configured milestone is at or
below the total net worth of the row of year y1, then the row of any
later year y2 does not list that milestone among the unreached ones,
even if net worth has fallen below it again: the milestones_reached
entry is written once and never cleared, and the unrealized column only
shows milestones with no entry. -/
theorem milestones_never_unreached (p : FinancialPlanner) (years : Nat)
    (verbose : Bool) (ov : Option (List (Nat × ℚ)))
    (rows : List ProjectionRow) (m : ℚ)
    (hrows : p.project_base years verbose ov = some rows)
    (hm : m ∈ p.milestones) (y1 y2 : Nat) (h12 : y1 < y2)
    (r1 r2 : ProjectionRow) (h1 : rows[y1]? = some r1)
    (h2 : rows[y2]? = some r2) (hnw : m ≤ r1.total_net_worth) :
    m ∉ r2.unrealized := by
  unfold FinancialPlanner.project_base at hrows
  exact rows_milestone_monotone p years verbose ov m (years + 1) 0 _ rows
    (lookup_init_milestones p.milestones m hm) hrows y1 y2 r1 r2 h12 h1 h2
    hnw

/-- A planner tracking the milestone 50, whose single asset already
exceeds it at year 0. -/
def c7Planner : FinancialPlanner :=
  FinancialPlanner.init 0 0 0 0 (TaxRate.const 0)
    [("A", { amount := 100, rate := 0, liquid := true })] none (some [50])

/-- Year-0 row of the milestone witness run. -/
def c7Row0 : ProjectionRow :=
  { year := 0, gross_income := 0, tax_rate := 0, net_income := 0
    base_expenses := 0, additional_expense := 0, total_expenses := 0
    annual_savings := 0, assets := [("A", 100)], gains := [], losses := []
    net_changes := [], total_net_worth := 100, unrealized := [] }

/-- Year-1 row of the milestone witness run. -/
def c7Row1 : ProjectionRow :=
  { year := 1, gross_income := 0, tax_rate := 0, net_income := 0
    base_expenses := 0, additional_expense := 0, total_expenses := 0
    annual_savings := 0, assets := [("A", 100)], gains := [], losses := []
    net_changes := [], total_net_worth := 100, unrealized := [] }

/-- C7, witness: in the concrete run the milestone 50 is reached at
year 0 and the year-1 row does not list it as unreached. -/
theorem milestones_never_unreached_witness :
    (50 : ℚ) ∉ c7Row1.unrealized :=
  milestones_never_unreached c7Planner 1 false none [c7Row0, c7Row1] 50
    (by norm_num [FinancialPlanner.project_base, projectRowsAux,
      FinancialPlanner.get_tax_rate_for_year,
      FinancialPlanner.get_additional_expense_for_year, transitionAssets,
      applySavingsStep, applyAppreciation, liquidTotal, allocOf,
      assetTotal, updateMilestones, unrealizedOf, reachedLookup,
      applyOverride, growthApplies, netChanges, c7Planner,
      FinancialPlanner.init, List.insertionSort, List.orderedInsert,
      List.lookup, c7Row0, c7Row1])
    (by norm_num [c7Planner, FinancialPlanner.init, List.insertionSort,
      List.orderedInsert])
    0 1 (by decide) c7Row0 c7Row1 rfl rfl
    (by norm_num [c7Row0])

/-! ## C5: the retirement scan keeps the first strict minimum -/

/-- Invariant of the retirement scan: from any starting best pair, the
scan returns a best candidate that either is the unchanged start or
strictly improves on it, is minimal among the evaluated candidates, and
is strictly better than every evaluated candidate before it (so ties
keep the earliest). -/
theorem searchLoop_spec (p : FinancialPlanner) (years : Nat) :
    ∀ (cands : List Nat) (by0 : Nat) (bd0 : ℚ) (b : Nat) (d : ℚ)
      (ev : List Nat),
      searchLoop p years cands by0 bd0 = some (b, d, ev) →
      List.Pairwise (fun a c => a < c) (by0 :: cands) →
      d ≤ bd0
      ∧ ((b = by0 ∧ d = bd0)
        ∨ (b ∈ ev ∧ d < bd0
            ∧ ∃ w, finalNetWorth p years b = some w ∧ d = |w|))
      ∧ (∀ r ∈ ev, ∃ w, finalNetWorth p years r = some w ∧ d ≤ |w|
          ∧ (r < b → d < |w|)) := by
  intro cands
  induction cands with
  | nil =>
    intro by0 bd0 b d ev hproj hp
    rw [searchLoop] at hproj
    cases hproj
    refine ⟨le_refl _, Or.inl ⟨rfl, rfl⟩, ?_⟩
    intro r hr
    cases hr
  | cons r rest ih =>
    intro by0 bd0 b d ev hproj hp
    have hby0r : by0 < r :=
      (List.pairwise_cons.mp hp).1 r (List.mem_cons_self _ _)
    rw [searchLoop] at hproj
    cases hfw : finalNetWorth p years r with
    | none =>
      rw [hfw] at hproj
      cases hproj
    | some fw =>
      rw [hfw] at hproj
      dsimp only at hproj
      by_cases himp : |fw| < bd0
      · simp only [if_pos himp] at hproj
        by_cases hneg : fw < 0
        · rw [if_pos hneg] at hproj
          cases hproj
          refine ⟨le_of_lt himp,
            Or.inr ⟨List.mem_cons_self _ _, himp, fw, hfw, rfl⟩, ?_⟩
          intro x hx
          rcases List.mem_cons.mp hx with rfl | hx'
          · exact ⟨fw, hfw, le_refl _, fun hlt => absurd hlt (lt_irrefl _)⟩
          · cases hx'
        · rw [if_neg hneg] at hproj
          cases hrec : searchLoop p years rest r |fw| with
          | none =>
            rw [hrec] at hproj
            cases hproj
          | some t =>
            rw [hrec] at hproj
            rcases t with ⟨b2, d2, ev2⟩
            have hp' : List.Pairwise (fun a c => a < c) (r :: rest) :=
              hp.of_cons
            rcases ih r |fw| b2 d2 ev2 hrec hp' with ⟨hd, hbr, hall⟩
            simp only [Option.some.injEq, Prod.mk.injEq] at hproj
            obtain ⟨hb2, hd2, hev2⟩ := hproj
            subst hb2
            subst hd2
            subst hev2
            refine ⟨le_of_lt (lt_of_le_of_lt hd himp), ?_, ?_⟩
            · rcases hbr with ⟨rfl, rfl⟩ | ⟨hmem, hlt, w, hw, hdw⟩
              · exact Or.inr ⟨List.mem_cons_self _ _, himp, fw, hfw, rfl⟩
              · exact Or.inr ⟨List.mem_cons_of_mem _ hmem,
                  lt_trans hlt himp, w, hw, hdw⟩
            · intro x hx
              rcases List.mem_cons.mp hx with rfl | hx'
              · refine ⟨fw, hfw, hd, ?_⟩
                intro hxb
                rcases hbr with ⟨rfl, rfl⟩ | ⟨hmem, hlt, w, hw, hdw⟩
                · exact absurd hxb (lt_irrefl _)
                · exact hlt
              · exact hall x hx'
      · simp only [if_neg himp] at hproj
        by_cases hneg : fw < 0
        · rw [if_pos hneg] at hproj
          cases hproj
          refine ⟨le_refl _, Or.inl ⟨rfl, rfl⟩, ?_⟩
          intro x hx
          rcases List.mem_cons.mp hx with rfl | hx'
          · refine ⟨fw, hfw, not_lt.mp himp, ?_⟩
            intro hxb
            exact absurd (lt_trans hxb hby0r) (lt_irrefl _)
          · cases hx'
        · rw [if_neg hneg] at hproj
          cases hrec : searchLoop p years rest by0 bd0 with
          | none =>
            rw [hrec] at hproj
            cases hproj
          | some t =>
            rw [hrec] at hproj
            rcases t with ⟨b2, d2, ev2⟩
            have hp' : List.Pairwise (fun a c => a < c) (by0 :: rest) := by
              rcases List.pairwise_cons.mp hp with ⟨hhead, htail⟩
              exact List.pairwise_cons.mpr
                ⟨fun x hx => hhead x (List.mem_cons_of_mem _ hx),
                  htail.of_cons⟩
            rcases ih by0 bd0 b2 d2 ev2 hrec hp' with ⟨hd, hbr, hall⟩
            simp only [Option.some.injEq, Prod.mk.injEq] at hproj
            obtain ⟨hb2, hd2, hev2⟩ := hproj
            subst hb2
            subst hd2
            subst hev2
            refine ⟨hd, ?_, ?_⟩
            · rcases hbr with ⟨rfl, rfl⟩ | ⟨hmem, hlt, w, hw, hdw⟩
              · exact Or.inl ⟨rfl, rfl⟩
              · exact Or.inr ⟨List.mem_cons_of_mem _ hmem, hlt, w, hw, hdw⟩
            · intro x hx
              rcases List.mem_cons.mp hx with rfl | hx'
              · refine ⟨fw, hfw, le_trans hd (not_lt.mp himp), ?_⟩
                intro hxb
                rcases hbr with ⟨rfl, rfl⟩ | ⟨hmem, hlt, w, hw, hdw⟩
                · exact absurd (lt_trans hxb hby0r) (lt_irrefl _)
                · exact lt_of_lt_of_le hlt (not_lt.mp himp)
              · exact hall x hx'

/-- C5: the retirement search scans candidates 1..years in order with
the stop-now baseline (year 0) as initial best and returns the earliest
evaluated candidate of minimal absolute final net worth: the final best
diff is a lower bound of every evaluated candidate's absolute final net
worth and of the baseline's, the best is the baseline exactly when no
candidate strictly improved on it, and every evaluated candidate
earlier than the best is strictly worse, so ties keep the smaller
year. -/
theorem search_best_is_first_min (p : FinancialPlanner) (years : Nat)
    (b : Nat) (d : ℚ) (ev : List Nat)
    (h : dieWithZeroSearch p years = some (b, d, ev)) :
    ∃ w0, finalNetWorth p years 0 = some w0 ∧ d ≤ |w0|
      ∧ ((b = 0 ∧ d = |w0|)
        ∨ (b ∈ ev ∧ d < |w0|
            ∧ ∃ wb, finalNetWorth p years b = some wb ∧ d = |wb|))
      ∧ (∀ r ∈ ev, ∃ w, finalNetWorth p years r = some w ∧ d ≤ |w|
          ∧ (r < b → d < |w|)) := by
  unfold dieWithZeroSearch at h
  cases hbase : finalNetWorth p years 0 with
  | none =>
    rw [hbase] at h
    cases h
  | some w0 =>
    rw [hbase] at h
    dsimp only at h
    have hpair : List.Pairwise (fun a c => a < c)
        (0 :: List.range' 1 years) := by
      have hr : (0 :: List.range' 1 years) = List.range' 0 (years + 1) := by
        rw [List.range'_succ]
      rw [hr]
      exact List.pairwise_lt_range' 0 (years + 1) 1 (by omega)
    rcases searchLoop_spec p years (List.range' 1 years) 0 |w0| b d ev h
      hpair with ⟨hd, hbr, hall⟩
    exact ⟨w0, rfl, hd, hbr, hall⟩

/-- The witness configuration of the search claims: income 1, expenses
2, a single liquid asset of 1 at rate 0. -/
def wP6 : FinancialPlanner :=
  FinancialPlanner.init 1 2 0 0 (TaxRate.const 0)
    [("A", { amount := 1, rate := 0, liquid := true })] none none

/-- C5, witness: on wP6 with horizon 2 the search returns the baseline
best year 0 with best diff 1 after evaluating only candidate 1 (whose
final net worth ties the baseline, so the earlier year is kept), and
the returned best satisfies the first-strict-minimum property. -/
theorem search_best_is_first_min_witness :
    ∃ w0, finalNetWorth wP6 2 0 = some w0 ∧ (1 : ℚ) ≤ |w0|
      ∧ (((0 : Nat) = 0 ∧ (1 : ℚ) = |w0|)
        ∨ ((0 : Nat) ∈ [1] ∧ (1 : ℚ) < |w0|
            ∧ ∃ wb, finalNetWorth wP6 2 0 = some wb ∧ (1 : ℚ) = |wb|))
      ∧ (∀ r ∈ [1], ∃ w, finalNetWorth wP6 2 r = some w
          ∧ (1 : ℚ) ≤ |w| ∧ (r < 0 → (1 : ℚ) < |w|)) :=
  search_best_is_first_min wP6 2 0 1 [1]
    (by
      norm_num [dieWithZeroSearch, searchLoop, finalNetWorth,
        FinancialPlanner.project_with_zero_income, buildOverride,
        FinancialPlanner.project_base, projectRowsAux,
        FinancialPlanner.get_tax_rate_for_year,
        FinancialPlanner.get_additional_expense_for_year, transitionAssets,
        applySavingsStep, applyAppreciation, liquidTotal, allocOf,
        assetTotal, updateMilestones, unrealizedOf, reachedLookup,
        applyOverride, growthApplies, netChanges, wP6,
        FinancialPlanner.init, List.insertionSort, List.orderedInsert,
        List.lookup, List.range', List.range_succ, List.range_zero,
        List.foldl]
      simp only [Nat.reduceBEq]
      norm_num)

/-! ## C6: the scan stops at the first negative candidate -/

/-- The retirement scan evaluates exactly the candidates up to and
including the first one whose final net worth is negative, and stops
there. -/
theorem searchLoop_stops (p : FinancialPlanner) (years : Nat) :
    ∀ (pre : List Nat) (r0 : Nat) (post : List Nat) (by0 : Nat) (bd0 : ℚ),
      (∀ x ∈ pre, ∃ w, finalNetWorth p years x = some w ∧ 0 ≤ w) →
      (∃ w, finalNetWorth p years r0 = some w ∧ w < 0) →
      ∃ b d, searchLoop p years (pre ++ r0 :: post) by0 bd0
          = some (b, d, pre ++ [r0]) := by
  intro pre
  induction pre with
  | nil =>
    intro r0 post by0 bd0 hpre hr
    rcases hr with ⟨w, hw, hneg⟩
    rw [List.nil_append, searchLoop, hw]
    dsimp only
    rw [if_pos hneg]
    exact ⟨_, _, rfl⟩
  | cons x pre' ih =>
    intro r0 post by0 bd0 hpre hr
    rcases hpre x (List.mem_cons_self _ _) with ⟨w, hw, hpos⟩
    rw [List.cons_append, searchLoop, hw]
    dsimp only
    rw [if_neg (not_lt.mpr hpos)]
    rcases ih r0 post (if |w| < bd0 then x else by0)
        (if |w| < bd0 then |w| else bd0)
        (fun y hy => hpre y (List.mem_cons_of_mem _ hy)) hr with
      ⟨b, d, heq⟩
    rw [heq]
    exact ⟨b, d, rfl⟩

/-- C6: when the candidate list splits as pre ++ r0 :: post with every
candidate in pre having non-negative final net worth and r0 a negative
one, the search evaluates exactly pre ++ [r0]: the first negative
candidate is still evaluated, and no candidate after it is. -/
theorem search_stops_at_first_negative (p : FinancialPlanner)
    (years : Nat) (pre post : List Nat) (r0 : Nat) (b : Nat) (d : ℚ)
    (ev : List Nat)
    (hsplit : List.range' 1 years = pre ++ r0 :: post)
    (hpre : ∀ x ∈ pre, ∃ w, finalNetWorth p years x = some w ∧ 0 ≤ w)
    (hr : ∃ w, finalNetWorth p years r0 = some w ∧ w < 0)
    (h : dieWithZeroSearch p years = some (b, d, ev)) :
    ev = pre ++ [r0] ∧ r0 ∈ ev := by
  unfold dieWithZeroSearch at h
  cases hbase : finalNetWorth p years 0 with
  | none =>
    rw [hbase] at h
    cases h
  | some w0 =>
    rw [hbase] at h
    dsimp only at h
    rw [hsplit] at h
    rcases searchLoop_stops p years pre r0 post 0 |w0| hpre hr with
      ⟨b2, d2, heq⟩
    rw [heq] at h
    have hev : ev = pre ++ [r0] := by
      simp only [Option.some.injEq, Prod.mk.injEq] at h
      exact h.2.2.symm
    exact ⟨hev, hev ▸ List.mem_append.mpr (Or.inr (List.mem_cons_self _ _))⟩

/-- C6, witness: on wP6 with horizon 2, candidate 1 already has negative
final net worth, so the scan evaluates exactly [1] and never reaches
candidate 2. -/
theorem search_stops_at_first_negative_witness :
    ([1] : List Nat) = [] ++ [1] ∧ (1 : Nat) ∈ ([1] : List Nat) :=
  search_stops_at_first_negative wP6 2 [] [2] 1 0 1 [1]
    (by decide)
    (by intro x hx; cases hx)
    (⟨-1, by
      norm_num [finalNetWorth,
        FinancialPlanner.project_with_zero_income, buildOverride,
        FinancialPlanner.project_base, projectRowsAux,
        FinancialPlanner.get_tax_rate_for_year,
        FinancialPlanner.get_additional_expense_for_year, transitionAssets,
        applySavingsStep, applyAppreciation, liquidTotal, allocOf,
        assetTotal, updateMilestones, unrealizedOf, reachedLookup,
        applyOverride, growthApplies, netChanges, wP6,
        FinancialPlanner.init, List.insertionSort, List.orderedInsert,
        List.lookup, List.range', List.range_succ, List.range_zero,
        List.foldl]
      simp only [Nat.reduceBEq]
      norm_num, by norm_num⟩)
    (by
      norm_num [dieWithZeroSearch, searchLoop, finalNetWorth,
        FinancialPlanner.project_with_zero_income, buildOverride,
        FinancialPlanner.project_base, projectRowsAux,
        FinancialPlanner.get_tax_rate_for_year,
        FinancialPlanner.get_additional_expense_for_year, transitionAssets,
        applySavingsStep, applyAppreciation, liquidTotal, allocOf,
        assetTotal, updateMilestones, unrealizedOf, reachedLookup,
        applyOverride, growthApplies, netChanges, wP6,
        FinancialPlanner.init, List.insertionSort, List.orderedInsert,
        List.lookup, List.range', List.range_succ, List.range_zero,
        List.foldl]
      simp only [Nat.reduceBEq]
      norm_num)
